import Mathlib

/-!
Verification development for the `mylinovel` crawler core.

Shallow embedding of two components:

* `src/crawler/downloader.py` — the `Downloader` class: a retrying,
  rate-limited HTTP fetch loop (`Downloader.download`, lines 97-223, and
  `Downloader._sleep_for_rate_limit`, lines 85-95).
* `src/crawler/special_chapter_resolver.py` — chapter-URL resolution
  (`resolve_next_chapter_url`, lines 87-168, and
  `resolve_all_special_chapters`, lines 171-241).

Network I/O, wall-clock time and randomness are made explicit: a download
run is driven by a trace of per-GET outcomes, the rate-limit sleep takes the
sampled jitter and the clock readings as arguments, and the resolver is
parameterised by an environment giving each URL's fetched content and the
next-page path extracted from it (the extractor `_extract_nextpage_path` is
BeautifulSoup-based site scraping, which the spec treats as an external
collaborator).  Delays are rationals; Python ints are `Int`/`Nat`.
-/

/-! ### Downloader (src/crawler/downloader.py) -/

/-- Configuration of a `Downloader` instance (constructor, lines 45-67).
`retry_times` is a Python `int`, so it is modelled as `Int`: `range(k)` is
empty for `k ≤ 0`.  `retry_delay` (seconds) is modelled as a rational.
Fields not involved in the retry loop (`base_url`, the session headers, the
User-Agent pool) are abstracted into the GET trace. -/
structure DlConfig where
  retry_times : Int
  retry_delay : ℚ
deriving DecidableEq, Repr

/-- A `requests.RequestException` as the retry loop inspects it: the status
code of the attached response, if any (`getattr(getattr(e, "response",
None), "status_code", None)`, line 203), and the raw `Retry-After` response
header, if present (line 208). -/
structure ReqError where
  status : Option Int
  retry_after : Option String
deriving DecidableEq, Repr

/-- The body of one successful HTTP response as the download loop consumes
it.  `has_br` models `'br' in content_encoding` (line 136); `brotli_text`
is `some t` when the `brotli` import and `brotli.decompress` both succeed
and decoding yields `t` (lines 138-148), and `none` when Brotli handling
fails (`ImportError` line 149 or any other exception line 157), forcing the
uncompressed re-request; `text` models `response.text` after the
gzip/deflate/encoding handling of lines 165-193. -/
structure HttpResponse where
  has_br : Bool
  brotli_text : Option String
  text : String
deriving DecidableEq, Repr

/-- Outcome of one underlying `session.get` + `raise_for_status`: either a
raised `requests.RequestException` or a response. -/
inductive GetResult where
  | failure (e : ReqError)
  | success (r : HttpResponse)
deriving DecidableEq, Repr

/-- Result of one iteration of the retry loop body (the `try` block,
lines 117-198): the text returned, a caught exception, or exhaustion of the
GET trace (the environment gave no further answer; not a program
behaviour). -/
inductive AttemptResult where
  | ok (text : String)
  | exn (e : ReqError)
  | noTrace
deriving DecidableEq, Repr

/-- One iteration of the retry loop body, consuming one or two GETs from
the trace.  Returns the result, the remaining trace, and the number of GET
requests issued.  The second GET is the compression-free re-request of
lines 152-156 / 160-164, issued only when the response is Brotli-compressed
and Brotli handling fails; its own `raise_for_status` failure is caught by
the enclosing `except` clause, hence surfaces as `.exn`. -/
def runAttempt : List GetResult → AttemptResult × List GetResult × Nat
  | [] => (.noTrace, [], 0)
  | .failure e :: rest => (.exn e, rest, 1)
  | .success r :: rest =>
    if r.has_br then
      match r.brotli_text with
      | some t => (.ok t, rest, 1)
      | none =>
        match rest with
        | [] => (.noTrace, [], 1)
        | .failure e :: rest2 => (.exn e, rest2, 2)
        | .success r2 :: rest2 => (.ok r2.text, rest2, 2)
    else (.ok r.text, rest, 1)

/-- Surrounding whitespace removal performed by Python `int(str)`. -/
def stripWs (s : String) : List Char :=
  ((s.toList.dropWhile Char.isWhitespace).reverse.dropWhile Char.isWhitespace).reverse

/-- Python `int(s)` restricted to what a `Retry-After` header can carry:
optional surrounding whitespace, an optional sign, then decimal digits.
Returns `none` where `int(s)` raises `ValueError` (underscore-grouped
literals and non-ASCII digits are not modelled). -/
def pyInt (s : String) : Option Int :=
  match stripWs s with
  | [] => none
  | '-' :: rest =>
    if rest ≠ [] ∧ rest.all Char.isDigit then
      some (-(rest.foldl (fun a c => a * 10 + (c.toNat - 48)) 0 : Nat))
    else none
  | '+' :: rest =>
    if rest ≠ [] ∧ rest.all Char.isDigit then
      some ((rest.foldl (fun a c => a * 10 + (c.toNat - 48)) 0 : Nat))
    else none
  | l =>
    if l.all Char.isDigit then
      some ((l.foldl (fun a c => a * 10 + (c.toNat - 48)) 0 : Nat))
    else none

/-- Lines 206-210: `retry_after = int(e.response.headers.get("Retry-After",
"0"))` inside `try/except`, defaulting to `0` whenever the header is absent
or unparseable. -/
def retryAfterValue (h : Option String) : Int :=
  (pyInt (h.getD "0")).getD 0

/-- Line 211: `wait_time = max(retry_after, self.retry_delay * (attempt + 1)
* 3)` after an HTTP 429. -/
def wait429 (retry_delay : ℚ) (attempt : Nat) (h : Option String) : ℚ :=
  max ((retryAfterValue h : ℚ)) (retry_delay * (attempt + 1) * 3)

/-- Final outcome of a `download` call: returned text, a raised
`requests.RequestException`, the trailing `raise last_exception` executed
with `last_exception` still `None` (line 223; in Python this raises
`TypeError`, not a transport error), or trace exhaustion. -/
inductive DlOutcome where
  | ok (text : String)
  | raised (e : ReqError)
  | raisedNone
  | stuck
deriving DecidableEq, Repr

/-- A sleep performed between attempts: either the 429 wait of line 213 or
the linear backoff of line 218. -/
inductive WaitEvent where
  | rateLimited (t : ℚ)
  | backoff (t : ℚ)
deriving DecidableEq, Repr

/-- Instrumented result of a `download` call: outcome, number of GET
requests issued, the sleeps performed between attempts, and the number of
retry-loop iterations executed. -/
structure RunStats where
  outcome : DlOutcome
  gets : Nat
  waits : List WaitEvent
  attempts : Nat
deriving DecidableEq, Repr

/-- The retry loop `for attempt in range(self.retry_times)` (lines
116-220) followed by the trailing `raise last_exception` (line 223).
`fuel` is the number of iterations left, `attempt` the current index (the
two move in lockstep from `download`), `last_exn` the `last_exception`
variable.  A 429 always sleeps `wait429` and continues (lines 204-213); any
other exception sleeps `retry_delay * (attempt + 1)` and continues when
`attempt < retry_times - 1`, and re-raises otherwise (lines 215-220). -/
def downloadGo (cfg : DlConfig) : Nat → Nat → Option ReqError → List GetResult → RunStats
  | 0, _, last_exn, _ =>
    { outcome := match last_exn with
        | some e => .raised e
        | none => .raisedNone
      gets := 0, waits := [], attempts := 0 }
  | fuel + 1, attempt, _, trace =>
    match runAttempt trace with
    | (.ok t, _, n) => { outcome := .ok t, gets := n, waits := [], attempts := 1 }
    | (.noTrace, _, n) => { outcome := .stuck, gets := n, waits := [], attempts := 1 }
    | (.exn e, rest, n) =>
      if e.status = some 429 then
        let s := downloadGo cfg fuel (attempt + 1) (some e) rest
        { outcome := s.outcome, gets := n + s.gets
          waits := .rateLimited (wait429 cfg.retry_delay attempt e.retry_after) :: s.waits
          attempts := 1 + s.attempts }
      else
        if (attempt : Int) < cfg.retry_times - 1 then
          let s := downloadGo cfg fuel (attempt + 1) (some e) rest
          { outcome := s.outcome, gets := n + s.gets
            waits := .backoff (cfg.retry_delay * (attempt + 1)) :: s.waits
            attempts := 1 + s.attempts }
        else
          { outcome := .raised e, gets := n, waits := [], attempts := 1 }

/-- `Downloader.download` (lines 97-223), driven by a trace of GET
outcomes.  `range(retry_times)` has `retry_times.toNat` elements. -/
def download (cfg : DlConfig) (trace : List GetResult) : RunStats :=
  downloadGo cfg cfg.retry_times.toNat 0 none trace

/-- `Downloader._sleep_for_rate_limit` (lines 85-95): given the configured
base interval, the `_last_request_ts` field, the current monotonic reading
`now`, and the sampled jitter `u = random.uniform(0, interval_jitter)`,
returns the duration slept.  The first request (`_last_request_ts ≤ 0`)
does not wait. -/
def sleepForRateLimit (base_interval last_ts now u : ℚ) : ℚ :=
  if last_ts ≤ 0 then 0
  else
    if now - last_ts < base_interval + u then (base_interval + u) - (now - last_ts)
    else 0

/-! ### Special-chapter resolver (src/crawler/special_chapter_resolver.py) -/

/-- Attempt `CHAPTER_ID_PATTERN = re.compile(r"/novel/(\d+)/(\d+)(?:_\d+)?\.html")`
at one fixed start position, returning the two captured groups.  `\d+` is
modelled as a maximal nonempty ASCII-digit run (the character after each
`\d+` in the pattern is never a digit, so maximal munch coincides with the
regex engine's greedy matching); the optional `(?:_\d+)?` succeeds exactly
when an underscore, digits and `.html` follow, and otherwise `\.html` must
follow the second digit run directly. -/
def chapterIdMatchAt (s : List Char) : Option (String × String) :=
  match s.dropPrefix? "/novel/".toList with
  | none => none
  | some r1 =>
    match r1.span Char.isDigit with
    | ([], _) => none
    | (d1, r2) =>
      match r2 with
      | '/' :: r3 =>
        match r3.span Char.isDigit with
        | ([], _) => none
        | (d2, r4) =>
          match r4 with
          | '_' :: r5 =>
            match r5.span Char.isDigit with
            | ([], _) => none
            | (_, r6) =>
              if ".html".toList.isPrefixOf r6 then some (d1.asString, d2.asString)
              else none
          | _ =>
            if ".html".toList.isPrefixOf r4 then some (d1.asString, d2.asString)
            else none
      | _ => none

/-- `CHAPTER_ID_PATTERN.search`: try every start position left to right. -/
def chapterIdSearch : List Char → Option (String × String)
  | [] => none
  | c :: rest =>
    match chapterIdMatchAt (c :: rest) with
    | some r => some r
    | none => chapterIdSearch rest

/-- `_extract_article_and_chapter` (lines 48-59): first match of
`CHAPTER_ID_PATTERN` in the path or URL, as `(article_id, chapter_base)`. -/
def extract_article_and_chapter (s : String) : Option (String × String) :=
  chapterIdSearch s.toList

/-- Python `str.startswith` over the character sequence. -/
def pyStartsWith (s p : String) : Bool :=
  p.toList.isPrefixOf s.toList

/-- Model of `urllib.parse.urljoin(base, url)` restricted to how this
program calls it: `base` is an origin without trailing path (the default
`https://www.linovelib.com`), and `url` is either already absolute (returned
unchanged) or a site-absolute path, which is appended to the origin. -/
def urljoin (base url : String) : String :=
  if pyStartsWith url "http" then url
  else if pyStartsWith url "/" then base ++ url
  else base ++ "/" ++ url

/-- Line 117-119: the URL actually fetched for a current pointer value. -/
def normUrl (base url : String) : String :=
  if pyStartsWith url "http" then url else urljoin base url

/-- Environment the resolver runs against: `download u` is the result of
`downloader.download(u)` (`none` models a raised exception, line 128), and
`extractNextpage h` is `_extract_nextpage_path(h)` — the BeautifulSoup
`var nextpage="..."` scraper (lines 62-84), which the spec treats as an
external collaborator supplying an optional path per fetched page. -/
structure ResolverEnv where
  download : String → Option String
  extractNextpage : String → Option String

/-- The `for _ in range(max_hops)` loop of `resolve_next_chapter_url`
(lines 116-168), instrumented with the number of `downloader.download`
calls.  `visited` is the cycle-guard set; a hop whose `nextpage` keeps the
chapter id continues with `current_url = next_path` (line 155), and a
chapter-id change returns `urljoin(base_url, next_path)` (line 159).
Python's `if not next_path` also rejects an empty string. -/
def resolveGo (env : ResolverEnv) (base article_id chapter_base : String) :
    Nat → List String → String → Option String × Nat
  | 0, _, _ => (none, 0)
  | hops + 1, visited, current_url =>
    let full_url := normUrl base current_url
    if full_url ∈ visited then (none, 0)
    else
      match env.download full_url with
      | none => (none, 1)
      | some html =>
        match env.extractNextpage html with
        | none => (none, 1)
        | some next_path =>
          if next_path = "" then (none, 1)
          else
            match extract_article_and_chapter next_path with
            | none => (none, 1)
            | some (article_id2, chapter2) =>
              if article_id2 ≠ article_id then (none, 1)
              else if chapter2 = chapter_base then
                let r := resolveGo env base article_id chapter_base hops
                  (full_url :: visited) next_path
                (r.1, r.2 + 1)
              else (some (urljoin base next_path), 1)

/-- `resolve_next_chapter_url` (lines 87-168) with its download count:
parse `(article_id, chapter_base)` from the predecessor URL (fail
immediately if unparseable, lines 105-108), then run the hop loop. -/
def resolveRun (env : ResolverEnv) (prev_chapter_url base : String) (max_hops : Nat) :
    Option String × Nat :=
  match extract_article_and_chapter prev_chapter_url with
  | none => (none, 0)
  | some (article_id, chapter_base) =>
    resolveGo env base article_id chapter_base max_hops [] prev_chapter_url

/-- `resolve_next_chapter_url` proper: the resolved URL or `None`. -/
def resolve_next_chapter_url (env : ResolverEnv) (prev_chapter_url base : String)
    (max_hops : Nat) : Option String :=
  (resolveRun env prev_chapter_url base max_hops).1

/-- The successor function the hop loop follows while it stays inside the
same chapter: `some next_path` exactly when the download, the `nextpage`
extraction and the id parse all succeed, the article id agrees and the
chapter id is unchanged — the conditions of the `continue` path of the
loop.  Any failure, and also a chapter-id change, yields `none`. -/
def chainStep (env : ResolverEnv) (base article_id chapter_base : String)
    (current_url : String) : Option String :=
  match env.download (normUrl base current_url) with
  | none => none
  | some html =>
    match env.extractNextpage html with
    | none => none
    | some next_path =>
      if next_path = "" then none
      else
        match extract_article_and_chapter next_path with
        | none => none
        | some (article_id2, chapter2) =>
          if article_id2 ≠ article_id then none
          else if chapter2 = chapter_base then some next_path
          else none

/-- Iterated `chainStep` from a starting pointer: the sequence of
`current_url` values the loop would traverse. -/
def chainWalk (env : ResolverEnv) (base article_id chapter_base start : String) :
    Nat → Option String
  | 0 => some start
  | n + 1 =>
    (chainWalk env base article_id chapter_base start n).bind
      (chainStep env base article_id chapter_base)

/-- A chapter entry of the book structure, with the fields
`resolve_all_special_chapters` reads and writes: `title`, `url` (absent or
empty is falsy in the guard of line 213), `needs_resolve`, `original_url`.
`ch.get("needs_resolve")` on a dict without the key is falsy, so the flag
is a plain `Bool`. -/
structure Chapter where
  title : String
  url : Option String
  needs_resolve : Bool
  original_url : Option String
deriving DecidableEq, Repr

/-- A volume: display name plus its ordered chapter list. -/
structure Volume where
  volume_name : String
  chapters : List Chapter
deriving DecidableEq, Repr

/-- The chapter list of volume `v`, as the code reads it:
`volumes[v].get("chapters") or []`. -/
def chListAt (volumes : List Volume) (v : Nat) : List Chapter :=
  ((volumes.get? v).map Volume.chapters).getD []

/-- Chapter entry at position `(v, c)` of the current structure. -/
def getCh (volumes : List Volume) (v c : Nat) : Option Chapter :=
  (volumes.get? v).bind fun vol => vol.chapters.get? c

/-- Number of chapters of volume `v`, when the volume exists. -/
def volLen (volumes : List Volume) (v : Nat) : Option Nat :=
  (volumes.get? v).map fun vol => vol.chapters.length

/-- Display name of volume `v`, when the volume exists. -/
def volName (volumes : List Volume) (v : Nat) : Option String :=
  (volumes.get? v).map Volume.volume_name

/-- The inner loop of `find_prev_normal_chapter` (lines 190-193):
`for c in range(start, -1, -1)` looking for the first chapter with a falsy
`needs_resolve`.  The argument is `start + 1`, the number of candidate
indices, so that Python's empty range `start = -1` is the `0` case. -/
def scanDown (ch_list : List Chapter) : Nat → Option (Nat × Chapter)
  | 0 => none
  | n + 1 =>
    match ch_list.get? n with
    | some ch => if ch.needs_resolve = false then some (n, ch) else scanDown ch_list n
    | none => scanDown ch_list n

/-- The outer loop of `find_prev_normal_chapter` (lines 187-194):
`for v in range(vol_idx, -1, -1)`, with `start = ch_idx - 1` in the current
volume and `len(ch_list) - 1` in earlier ones.  The argument is `v + 1`. -/
def findPrevVols (volumes : List Volume) (vol_idx ch_idx : Nat) :
    Nat → Option (Nat × Nat × Chapter)
  | 0 => none
  | vp + 1 =>
    let ch_list := chListAt volumes vp
    let cnt := if vp = vol_idx then ch_idx else ch_list.length
    match scanDown ch_list cnt with
    | some (c, ch) => some (vp, c, ch)
    | none => findPrevVols volumes vol_idx ch_idx vp

/-- `find_prev_normal_chapter` (lines 183-194): nearest chapter before
position `(vol_idx, ch_idx)` in document order with `needs_resolve`
falsy. -/
def find_prev_normal_chapter (volumes : List Volume) (vol_idx ch_idx : Nat) :
    Option (Nat × Nat × Chapter) :=
  findPrevVols volumes vol_idx ch_idx (vol_idx + 1)

/-- In-place update of the chapter at `(v, c)`, as the dict mutation of
lines 234-236 appears to a reader of the whole structure. -/
def setChapter (volumes : List Volume) (v c : Nat) (ch : Chapter) : List Volume :=
  match volumes.get? v with
  | none => volumes
  | some vol => volumes.set v { vol with chapters := vol.chapters.set c ch }

/-- The decision the body of the double loop of
`resolve_all_special_chapters` takes for the target at `(vi, ci)` (lines
199-236): `none` when the target is skipped (already resolved, no resolved
predecessor, invalid predecessor URL, or failed resolution — lines
199-230), `some newCh` when resolution succeeded and the target is
rewritten with `original_url := url`, `url := resolved`, `needs_resolve :=
False` (lines 232-236).  The second component counts the
`downloader.download` calls made.  `resolve_next_chapter_url` is called
with its default `max_hops = 20`. -/
def chapterDecision (env : ResolverEnv) (base : String) (volumes : List Volume)
    (vi ci : Nat) : Option Chapter × Nat :=
  match getCh volumes vi ci with
  | none => (none, 0)
  | some ch =>
    if ch.needs_resolve = false then (none, 0)
    else
      match find_prev_normal_chapter volumes vi ci with
      | none => (none, 0)
      | some (_, _, prev_ch) =>
        match prev_ch.url with
        | none => (none, 0)
        | some prev_url =>
          if prev_url = "" ∨ prev_url = "javascript:cid(0)" then (none, 0)
          else
            match resolveRun env prev_url base 20 with
            | (none, n) => (none, n)
            | (some resolved_url, n) =>
              if resolved_url = "" then (none, n)
              else
                let newCh : Chapter :=
                  { ch with
                    original_url := ch.url
                    url := some resolved_url
                    needs_resolve := false }
                (some newCh, n)

/-- One iteration of the chapter loop: apply the decision for `(vi, ci)`
to the structure. -/
def processChapter (env : ResolverEnv) (base : String) (volumes : List Volume)
    (vi ci : Nat) : List Volume :=
  match (chapterDecision env base volumes vi ci).1 with
  | none => volumes
  | some newCh => setChapter volumes vi ci newCh

/-- The chapter loop `for ci, ch in enumerate(chapters)` of volume `vi`,
processing positions `ci, ci+1, …` while `rem` counts the iterations left
(the chapter count is fixed when the volume is entered; updates never
change list lengths). -/
def resolveChaptersFrom (env : ResolverEnv) (base : String) (vi : Nat) :
    Nat → List Volume → Nat → List Volume
  | 0, volumes, _ => volumes
  | rem + 1, volumes, ci =>
    resolveChaptersFrom env base vi rem (processChapter env base volumes vi ci) (ci + 1)

/-- The volume loop `for vi, vol in enumerate(volumes)`, processing
volumes `vi, vi+1, …` with `rem` iterations left. -/
def resolveVolumesFrom (env : ResolverEnv) (base : String) :
    Nat → List Volume → Nat → List Volume
  | 0, volumes, _ => volumes
  | rem + 1, volumes, vi =>
    resolveVolumesFrom env base rem
      (resolveChaptersFrom env base vi ((volLen volumes vi).getD 0) volumes 0) (vi + 1)

/-- `resolve_all_special_chapters` (lines 171-241): traverse volumes and
chapters in document order, resolving each `needs_resolve` target from its
nearest resolved predecessor, mutating the structure as it goes. -/
def resolve_all_special_chapters (env : ResolverEnv) (base : String)
    (volumes : List Volume) : List Volume :=
  resolveVolumesFrom env base volumes.length volumes 0

/-- The two ways a pass may leave a chapter entry: untouched, or — only
when it was an unresolved target — rewritten by a successful resolution,
which moves the placeholder `url` into `original_url`, installs a resolved
address, and clears `needs_resolve`. -/
def chapterOutcome (ch ch' : Chapter) : Prop :=
  ch' = ch ∨
    (ch.needs_resolve = true ∧ ch'.needs_resolve = false ∧
      ch'.original_url = ch.url ∧ ch'.title = ch.title ∧ ch'.url.isSome = true)

/-- How a whole book structure may evolve under the resolution pass: the
volume count, every volume's name and chapter count are preserved, and
every chapter entry satisfies `chapterOutcome`. -/
def bookEvolves (B B' : List Volume) : Prop :=
  B'.length = B.length ∧
  (∀ v, volLen B' v = volLen B v) ∧
  (∀ v, volName B' v = volName B v) ∧
  (∀ v c ch ch', getCh B v c = some ch → getCh B' v c = some ch' → chapterOutcome ch ch')

/-! ### Concrete fixtures used by the claim theorems and witnesses -/

/-- The placeholder sentinel the catalog uses for unresolved chapters. -/
def placeholderUrl : String := "javascript:cid(0)"

/-- Site base URL (the default `base_url`). -/
def siteBase : String := "https://www.linovelib.com"

/-- Environment realising the predecessor chain of the spec's resolution
example: `P1 (/novel/4519/262081.html)` paginates to `P2
(/novel/4519/262081_2.html)`, which paginates to the next chapter `P3
(/novel/4519/262082.html)`. -/
def envP : ResolverEnv where
  download u :=
    if u = "https://www.linovelib.com/novel/4519/262081.html" then some "p1"
    else if u = "https://www.linovelib.com/novel/4519/262081_2.html" then some "p2"
    else none
  extractNextpage h :=
    if h = "p1" then some "/novel/4519/262081_2.html"
    else if h = "p2" then some "/novel/4519/262082.html"
    else none

/-- Environment whose next-page pointers form a two-page cycle inside
chapter `2` of collection `1`: page one points to page two and page two
points back to page one. -/
def envCycle : ResolverEnv where
  download u :=
    if u = "https://www.linovelib.com/novel/1/2.html" then some "q1"
    else if u = "https://www.linovelib.com/novel/1/2_2.html" then some "q2"
    else none
  extractNextpage h :=
    if h = "q1" then some "/novel/1/2_2.html"
    else if h = "q2" then some "/novel/1/2.html"
    else none

/-- Environment for the cascading-resolution scenario: a pagination chain
from chapter `100` of collection `1` that crosses chapter boundaries three
times — `100.html → 100_2.html → 101.html → 102.html → 103.html`. -/
def envCascade : ResolverEnv where
  download u :=
    if u = "http://b/novel/1/100.html" then some "h0"
    else if u = "http://b/novel/1/100_2.html" then some "h0b"
    else if u = "http://b/novel/1/101.html" then some "h1"
    else if u = "http://b/novel/1/102.html" then some "h2"
    else none
  extractNextpage h :=
    if h = "h0" then some "/novel/1/100_2.html"
    else if h = "h0b" then some "/novel/1/101.html"
    else if h = "h1" then some "/novel/1/102.html"
    else if h = "h2" then some "/novel/1/103.html"
    else none

/-- An unresolved placeholder chapter entry. -/
def unresolvedCh (t : String) : Chapter :=
  ⟨t, some placeholderUrl, true, none⟩

/-- One volume with resolved chapter `C0` followed by unresolved `C1`,
`C2`, `C3`. -/
def bookCascade : List Volume :=
  [⟨"v1", [⟨"c0", some "http://b/novel/1/100.html", false, none⟩,
           unresolvedCh "c1", unresolvedCh "c2", unresolvedCh "c3"]⟩]

/-- The cascading scenario after the pass: all three targets resolved, each
recording the placeholder in `original_url`. -/
def bookCascadeDone : List Volume :=
  [⟨"v1", [⟨"c0", some "http://b/novel/1/100.html", false, none⟩,
           ⟨"c1", some "http://b/novel/1/101.html", false, some placeholderUrl⟩,
           ⟨"c2", some "http://b/novel/1/102.html", false, some placeholderUrl⟩,
           ⟨"c3", some "http://b/novel/1/103.html", false, some placeholderUrl⟩]⟩]

/-- An environment where every download fails. -/
def envDead : ResolverEnv where
  download _ := none
  extractNextpage _ := none

/-- A small book whose first chapter is already resolved and whose second
is an unresolvable placeholder (every fetch fails). -/
def bookMixed : List Volume :=
  [⟨"v", [⟨"a", some "http://b/novel/1/5.html", false, none⟩, unresolvedCh "b"]⟩]

/-! ### Retry loop: attempt and GET bounds (claim C1) -/

/-- One retry-loop iteration issues at most two GET requests (the second
one only for the compression-free re-request). -/
theorem runAttempt_gets_le (trace : List GetResult) : (runAttempt trace).2.2 ≤ 2 := by
  match trace with
  | [] => simp [runAttempt]
  | .failure e :: rest => simp [runAttempt]
  | .success r :: rest =>
    cases hbr : r.has_br
    · simp [runAttempt, hbr]
    · cases hb : r.brotli_text
      · rcases rest with _ | ⟨e2 | r2, rest2⟩ <;> simp [runAttempt, hbr, hb]
      · simp [runAttempt, hbr, hb]

/-- The loop executes at most `fuel` iterations and issues at most
`2 * fuel` GETs. -/
theorem downloadGo_bounds (cfg : DlConfig) : ∀ fuel attempt last_exn trace,
    (downloadGo cfg fuel attempt last_exn trace).attempts ≤ fuel ∧
    (downloadGo cfg fuel attempt last_exn trace).gets ≤ 2 * fuel := by
  intro fuel
  induction fuel with
  | zero => intro attempt last_exn trace; cases last_exn <;> simp [downloadGo]
  | succ f ih =>
    intro attempt last_exn trace
    rcases hr : runAttempt trace with ⟨res, rest, n⟩
    have hn : n ≤ 2 := by
      have h2 := runAttempt_gets_le trace
      rw [hr] at h2
      exact h2
    cases res with
    | ok t => refine ⟨?_, ?_⟩ <;> (simp [downloadGo, hr]; try omega)
    | noTrace => refine ⟨?_, ?_⟩ <;> (simp [downloadGo, hr]; try omega)
    | exn e =>
      by_cases h4 : e.status = some 429
      · have hih := ih (attempt + 1) (some e) rest
        refine ⟨?_, ?_⟩ <;> (simp [downloadGo, hr, h4]; try omega)
      · by_cases hlt : (attempt : Int) < cfg.retry_times - 1
        · have hih := ih (attempt + 1) (some e) rest
          refine ⟨?_, ?_⟩ <;> (simp [downloadGo, hr, h4, hlt]; try omega)
        · refine ⟨?_, ?_⟩ <;> (simp [downloadGo, hr, h4, hlt]; try omega)

/-- Claim C1, amended: a `download` call with `retry_times = k` executes at
most `k` iterations of the retry loop, and each iteration issues at most
two HTTP GETs — the second only for the compression-free re-request after
a failed Brotli decode — so at most `2·k` GETs are issued before the call
returns content or propagates a failure. -/
theorem download_attempt_and_get_bound (cfg : DlConfig) (trace : List GetResult) :
    (download cfg trace).attempts ≤ cfg.retry_times.toNat ∧
    (download cfg trace).gets ≤ 2 * cfg.retry_times.toNat :=
  downloadGo_bounds cfg cfg.retry_times.toNat 0 none trace

/-- Claim C1, counterexample: with `retry_times = 1`, a Brotli-compressed
response whose decode fails triggers the uncompressed re-request, so a
single successful `download` call issues 2 > 1 HTTP GETs. -/
theorem download_get_budget_counterexample :
    ¬ ((download ⟨1, 1⟩ [.success ⟨true, none, "x"⟩, .success ⟨false, none, "y"⟩]).gets
        ≤ (1 : Int).toNat) ∧
    (download ⟨1, 1⟩ [.success ⟨true, none, "x"⟩, .success ⟨false, none, "y"⟩]).outcome
      = .ok "y" := by
  constructor
  · decide
  · decide

/-! ### 429 handling (claim C2) -/

/-- Claim C2, amended: when an attempt fails with HTTP 429, the fetcher
always sleeps `max(Retry-After hint, retry_delay × (attempt+1) × 3)` — the
hint (absent or unparseable meaning `0`) is honoured only when it is at
least the fallback value — and then continues into the remaining retry
budget rather than raising in the loop; the 429 error surfaces only through
the post-loop raise once the budget is exhausted. -/
theorem download_429_wait_and_retry (cfg : DlConfig) (fuel attempt : Nat)
    (last_exn : Option ReqError) (trace rest : List GetResult) (e : ReqError) (n : Nat)
    (hrun : runAttempt trace = (.exn e, rest, n))
    (h429 : e.status = some 429) :
    downloadGo cfg (fuel + 1) attempt last_exn trace =
      { outcome := (downloadGo cfg fuel (attempt + 1) (some e) rest).outcome
        gets := n + (downloadGo cfg fuel (attempt + 1) (some e) rest).gets
        waits := .rateLimited (max ((retryAfterValue e.retry_after : ℚ))
            (cfg.retry_delay * (attempt + 1) * 3))
          :: (downloadGo cfg fuel (attempt + 1) (some e) rest).waits
        attempts := 1 + (downloadGo cfg fuel (attempt + 1) (some e) rest).attempts } := by
  simp [downloadGo, hrun, h429, wait429]

/-- Witness for `download_429_wait_and_retry` at a concrete 429 trace. -/
theorem download_429_wait_and_retry_witness :
    downloadGo ⟨2, 1⟩ (0 + 1) 1 none [.failure ⟨some 429, some "7"⟩] =
      { outcome := (downloadGo ⟨2, 1⟩ 0 2 (some ⟨some 429, some "7"⟩) []).outcome
        gets := 1 + (downloadGo ⟨2, 1⟩ 0 2 (some ⟨some 429, some "7"⟩) []).gets
        waits := .rateLimited (max ((retryAfterValue (some "7") : ℚ)) ((1 : ℚ) * (1 + 1) * 3))
          :: (downloadGo ⟨2, 1⟩ 0 2 (some ⟨some 429, some "7"⟩) []).waits
        attempts := 1 + (downloadGo ⟨2, 1⟩ 0 2 (some ⟨some 429, some "7"⟩) []).attempts } :=
  download_429_wait_and_retry ⟨2, 1⟩ 0 1 none _ [] ⟨some 429, some "7"⟩ 1 (by decide) (by decide)

/-- Claim C2, counterexample: a 429 carrying the hint `Retry-After: 1`
with `retry_delay = 1` on the first attempt makes the fetcher wait
`max(1, 1·(0+1)·3) = 3` seconds, not the hinted 1 second. -/
theorem download_429_hint_counterexample :
    (download ⟨2, 1⟩ [.failure ⟨some 429, some "1"⟩, .success ⟨false, none, "y"⟩]).waits
      = [.rateLimited 3] ∧ (3 : ℚ) ≠ 1 := by
  have h2 : wait429 1 0 (some "1") = 3 := by
    have h1 : retryAfterValue (some "1") = 1 := by decide
    rw [wait429, h1]
    norm_num
  refine ⟨?_, by norm_num⟩
  have ht : ((2 : Int)).toNat = 2 := by decide
  rw [download, ht]
  simp only [downloadGo, runAttempt]
  norm_num [h2]

/-! ### Rate-limit pacing (claim C3) -/

/-- Claim C3: with a previous completion recorded at `last_ts > 0` and a
nonnegative jitter sample `u`, the next request starts no earlier than
`last_ts + base_interval`, and a larger jitter sample can only delay the
start further. -/
theorem rate_limit_gap_lower_bound (base_interval last_ts now u u' : ℚ)
    (h0 : 0 < last_ts) (hu : 0 ≤ u) (huu : u ≤ u') :
    last_ts + base_interval ≤ now + sleepForRateLimit base_interval last_ts now u ∧
    now + sleepForRateLimit base_interval last_ts now u
      ≤ now + sleepForRateLimit base_interval last_ts now u' := by
  unfold sleepForRateLimit
  split_ifs <;> exact ⟨by linarith, by linarith⟩

/-- Witness for `rate_limit_gap_lower_bound` at concrete clock values. -/
theorem rate_limit_gap_lower_bound_witness :
    (10 : ℚ) + 1 ≤ (21 / 2 : ℚ) + sleepForRateLimit 1 10 (21 / 2) (1 / 4) ∧
    (21 / 2 : ℚ) + sleepForRateLimit 1 10 (21 / 2) (1 / 4)
      ≤ (21 / 2 : ℚ) + sleepForRateLimit 1 10 (21 / 2) (1 / 2) :=
  rate_limit_gap_lower_bound 1 10 (21 / 2) (1 / 4) (1 / 2)
    (by norm_num) (by norm_num) (by norm_num)

/-! ### Empty retry budget (claim C10) -/

/-- Claim C10: with `retry_times ≤ 0` the loop body never runs, no GET is
issued, and the call reaches the trailing `raise last_exception` with
`last_exception` still `None` — the "unreachable" final raise executes,
raising a non-transport error with no underlying cause. -/
theorem download_zero_retries_raises_none (cfg : DlConfig) (trace : List GetResult)
    (h : cfg.retry_times ≤ 0) :
    download cfg trace = ⟨.raisedNone, 0, [], 0⟩ := by
  have ht : cfg.retry_times.toNat = 0 := Int.toNat_of_nonpos h
  simp [download, ht, downloadGo]

/-- Witness for `download_zero_retries_raises_none` with `retry_times = 0`
and a nonempty trace. -/
theorem download_zero_retries_raises_none_witness :
    download ⟨0, 1⟩ [.failure ⟨some 500, none⟩] = ⟨.raisedNone, 0, [], 0⟩ :=
  download_zero_retries_raises_none ⟨0, 1⟩ [.failure ⟨some 500, none⟩] (by decide)

/-! ### Resolution of one chapter along a pagination chain (claim C4) -/

/-- Claim C4: on the chain `P1 (/novel/4519/262081.html)` →
`P2 (/novel/4519/262081_2.html`, same chapter `262081)` →
`P3 (/novel/4519/262082.html`, chapter `262082)`,
`resolve_next_chapter_url` called on `P1` returns `P3`'s fully-qualified
address. -/
theorem resolve_chain_example :
    resolve_next_chapter_url envP "https://www.linovelib.com/novel/4519/262081.html"
        siteBase 20 =
      some "https://www.linovelib.com/novel/4519/262082.html" := by
  decide

/-! ### Cascading resolution in one pass (claim C6) -/

/-- Claim C6: with resolved `C0` followed by unresolved `C1`, `C2`, `C3`
and a pagination chain from `C0` crossing chapter boundaries three times,
one run of `resolve_all_special_chapters` resolves all three targets.  The
final addresses `101`, `102`, `103` are obtainable only because each
target's backward search found the chapter resolved immediately before it
in the same pass: a walk from `C0`'s address stops at the first boundary,
`/novel/1/101.html`, so `C2` and `C3` must have started from the in-place
updated `C1` and `C2`. -/
theorem resolve_all_cascade_example :
    resolve_all_special_chapters envCascade "http://b" bookCascade = bookCascadeDone := by
  decide

/-! ### Cycle termination of the hop loop (claim C5) -/

/-- The hop successor depends on the current pointer only through the
fetched (normalised) URL. -/
theorem chainStep_congr (env : ResolverEnv) (base a c x y : String)
    (h : normUrl base x = normUrl base y) :
    chainStep env base a c x = chainStep env base a c y := by
  unfold chainStep
  rw [h]

/-- Unfold one step of the walk at the front instead of at the back. -/
theorem chainWalk_succ_front (env : ResolverEnv) (base a c start : String) (n : Nat) :
    chainWalk env base a c start (n + 1) =
      (chainStep env base a c start).bind (fun v => chainWalk env base a c v n) := by
  induction n with
  | zero =>
    show (chainWalk env base a c start 0).bind _ = _
    simp [chainWalk]
  | succ n ih =>
    show (chainWalk env base a c start (n + 1)).bind _ = _
    rw [ih]
    cases chainStep env base a c start with
    | none => simp
    | some v => simp [chainWalk]

/-- Once the walk dies it stays dead. -/
theorem chainWalk_none_mono (env : ResolverEnv) (base a c start : String) (t s : Nat)
    (h : chainWalk env base a c start t = none) :
    chainWalk env base a c start (t + s) = none := by
  induction s with
  | zero => exact h
  | succ s ih =>
    show (chainWalk env base a c start (t + s)).bind _ = none
    rw [ih]
    rfl

/-- Liveness is downward closed: a live step keeps all earlier steps live. -/
theorem chainWalk_some_of_le (env : ResolverEnv) (base a c start : String) (t j : Nat)
    (htj : t ≤ j) (h : (chainWalk env base a c start j).isSome = true) :
    (chainWalk env base a c start t).isSome = true := by
  rcases hw : chainWalk env base a c start t with _ | x
  · have := chainWalk_none_mono env base a c start t (j - t) hw
    rw [Nat.add_sub_cancel' htj] at this
    rw [this] at h
    simp at h
  · rfl

/-- Two positions whose pointers normalise to the same fetched URL make the
walk periodic from there on. -/
theorem chainWalk_periodic (env : ResolverEnv) (base a c start x y : String) (i j : Nat)
    (hx : chainWalk env base a c start i = some x)
    (hy : chainWalk env base a c start j = some y)
    (hnorm : normUrl base x = normUrl base y) :
    ∀ t, chainWalk env base a c start (i + 1 + t) = chainWalk env base a c start (j + 1 + t) := by
  intro t
  induction t with
  | zero =>
    show (chainWalk env base a c start i).bind _ = (chainWalk env base a c start j).bind _
    rw [hx, hy]
    simp [chainStep_congr env base a c x y hnorm]
  | succ t ih =>
    have e1 : i + 1 + (t + 1) = (i + 1 + t) + 1 := by omega
    have e2 : j + 1 + (t + 1) = (j + 1 + t) + 1 := by omega
    rw [e1, e2]
    show (chainWalk env base a c start (i + 1 + t)).bind _ =
      (chainWalk env base a c start (j + 1 + t)).bind _
    rw [ih]

/-- If the walk ever revisits a fetched URL, it is live forever (it can
never leave the chapter). -/
theorem chainWalk_all_some (env : ResolverEnv) (base a c start : String) (i j : Nat)
    (hij : i < j)
    (hsome : (chainWalk env base a c start j).isSome = true)
    (hrev : (chainWalk env base a c start i).map (normUrl base) =
      (chainWalk env base a c start j).map (normUrl base)) :
    ∀ t, (chainWalk env base a c start t).isSome = true := by
  rcases hy : chainWalk env base a c start j with _ | y
  · rw [hy] at hsome; simp at hsome
  rcases hx : chainWalk env base a c start i with _ | x
  · rw [hx, hy] at hrev; simp at hrev
  rw [hx, hy] at hrev
  simp only [Option.map_some'] at hrev
  have hper := chainWalk_periodic env base a c start x y i j hx hy (Option.some_inj.mp hrev)
  intro t
  induction t using Nat.strong_induction_on with
  | _ t ih =>
    by_cases htj : t ≤ j
    · exact chainWalk_some_of_le env base a c start t j htj (by rw [hy]; rfl)
    · have hts : t = j + 1 + (t - j - 1) := by omega
      rw [hts, ← hper (t - j - 1)]
      exact ih (i + 1 + (t - j - 1)) (by omega)

/-- When the hop successor is defined and the fetched URL is fresh, the
loop recurses: one more fetch, then the run continues from the next
pointer with the fetched URL added to the visited set. -/
theorem resolveGo_cont (env : ResolverEnv) (base a c cur np : String)
    (hops : Nat) (visited : List String)
    (hstep : chainStep env base a c cur = some np)
    (hvis : normUrl base cur ∉ visited) :
    resolveGo env base a c (hops + 1) visited cur =
      ((resolveGo env base a c hops (normUrl base cur :: visited) np).1,
       (resolveGo env base a c hops (normUrl base cur :: visited) np).2 + 1) := by
  unfold chainStep at hstep
  rcases hd : env.download (normUrl base cur) with _ | html
  · simp only [hd] at hstep
    exact Option.noConfusion hstep
  simp only [hd] at hstep
  rcases hx : env.extractNextpage html with _ | np1
  · simp only [hx] at hstep
    exact Option.noConfusion hstep
  simp only [hx] at hstep
  by_cases hne : np1 = ""
  · simp only [if_pos hne] at hstep
    exact Option.noConfusion hstep
  simp only [if_neg hne] at hstep
  rcases hp : extract_article_and_chapter np1 with _ | pr
  · simp only [hp] at hstep
    exact Option.noConfusion hstep
  simp only [hp] at hstep
  rcases pr with ⟨a2, c2⟩
  by_cases ha : a2 = a
  · simp only [ha, ne_eq, not_true_eq_false, if_false, reduceIte] at hstep
    by_cases hc : c2 = c
    · simp only [if_pos hc] at hstep
      have hnp : np1 = np := Option.some_inj.mp hstep
      subst hnp
      simp only [resolveGo]
      rw [if_neg hvis]
      simp only [hd, hx, if_neg hne, hp, ha, ne_eq, not_true_eq_false, if_false,
        reduceIte, if_pos hc]
    · simp only [if_neg hc] at hstep
      exact Option.noConfusion hstep
  · simp only [if_pos ha] at hstep
    exact Option.noConfusion hstep

/-- While the walk is live forever, the loop can only exhaust its hop
budget or trip the cycle guard: it returns `None`. -/
theorem resolveGo_none_of_all_some (env : ResolverEnv) (base a c : String) :
    ∀ hops (cur : String) (visited : List String),
      (∀ t, (chainWalk env base a c cur t).isSome = true) →
      (resolveGo env base a c hops visited cur).1 = none := by
  intro hops
  induction hops with
  | zero =>
    intro cur visited _
    simp [resolveGo]
  | succ h ih =>
    intro cur visited hall
    have h1 := hall 1
    rw [chainWalk_succ_front] at h1
    simp only [chainWalk] at h1
    rcases hstep : chainStep env base a c cur with _ | np
    · rw [hstep] at h1; simp at h1
    by_cases hvis : normUrl base cur ∈ visited
    · simp only [resolveGo]
      rw [if_pos hvis]
    · rw [resolveGo_cont env base a c cur np h visited hstep hvis]
      refine ih np (normUrl base cur :: visited) ?_
      intro t
      have := hall (t + 1)
      rw [chainWalk_succ_front, hstep] at this
      simpa using this

/-- The loop downloads at most one page per hop of budget. -/
theorem resolveGo_fetches_le (env : ResolverEnv) (base a c : String) :
    ∀ hops (visited : List String) (cur : String),
      (resolveGo env base a c hops visited cur).2 ≤ hops := by
  intro hops
  induction hops with
  | zero => intro visited cur; simp [resolveGo]
  | succ h ih =>
    intro visited cur
    simp only [resolveGo]
    split
    · simp
    · split
      · simp
      · split
        · simp
        · split
          · simp
          · split
            · simp
            · split
              · simp
              · split
                · simpa using Nat.succ_le_succ (ih _ _)
                · simp

/-- Claim C5: if the next-page pointers from a parseable starting address
eventually revisit an already-fetched URL, `resolve_next_chapter_url`
terminates with `None`, and in any case it performs at most `max_hops`
downloads. -/
theorem resolve_cycle_terminates (env : ResolverEnv) (base s a c : String)
    (max_hops i j : Nat)
    (hparse : extract_article_and_chapter s = some (a, c))
    (hij : i < j)
    (hsome : (chainWalk env base a c s j).isSome = true)
    (hrev : (chainWalk env base a c s i).map (normUrl base) =
      (chainWalk env base a c s j).map (normUrl base)) :
    resolve_next_chapter_url env s base max_hops = none ∧
    (resolveRun env s base max_hops).2 ≤ max_hops := by
  have hall := chainWalk_all_some env base a c s i j hij hsome hrev
  constructor
  · unfold resolve_next_chapter_url
    simp only [resolveRun, hparse]
    exact resolveGo_none_of_all_some env base a c max_hops s [] hall
  · simp only [resolveRun, hparse]
    exact resolveGo_fetches_le env base a c max_hops [] s

/-- Witness for `resolve_cycle_terminates`: in `envCycle` the two pages of
chapter `2` point at each other, so the walk revisits its start at step 2. -/
theorem resolve_cycle_terminates_witness :
    resolve_next_chapter_url envCycle "/novel/1/2.html" siteBase 20 = none ∧
    (resolveRun envCycle "/novel/1/2.html" siteBase 20).2 ≤ 20 :=
  resolve_cycle_terminates envCycle siteBase "/novel/1/2.html" "1" "2" 20 0 2
    (by decide) (by decide) (by decide) (by decide)

/-! ### Structure accessors: basic lemmas -/

/-- An index reads as `some` exactly when it is in range. -/
theorem listGetIsSome {α : Type} (l : List α) (n : Nat) :
    (l.get? n).isSome = true ↔ n < l.length := by
  constructor
  · intro hs
    by_contra hn
    rw [List.get?_eq_none.mpr (Nat.le_of_not_lt hn)] at hs
    simp at hs
  · intro hlt
    rw [List.get?_eq_getElem?, List.getElem?_eq_getElem hlt]
    rfl

/-- Setting an in-range index is observable at that index. -/
theorem listGetSet_eq {α : Type} (l : List α) (i : Nat) (x : α) (h : i < l.length) :
    (l.set i x).get? i = some x := by
  rw [List.get?_eq_getElem?, List.getElem?_set_self', List.getElem?_eq_getElem h]
  rfl

/-- Setting one index leaves every other index unchanged. -/
theorem listGetSet_ne {α : Type} (l : List α) (i j : Nat) (x : α) (h : i ≠ j) :
    (l.set i x).get? j = l.get? j := by
  rw [List.get?_eq_getElem?, List.get?_eq_getElem?, List.getElem?_set_ne h]

/-- `getCh` factors through the per-volume chapter list. -/
theorem getCh_eq_chListAt (volumes : List Volume) (v c : Nat) :
    getCh volumes v c = (chListAt volumes v).get? c := by
  unfold getCh chListAt
  cases volumes.get? v <;> rfl

/-- The chapter-list length is `volLen` with default `0`. -/
theorem chListAt_length (volumes : List Volume) (v : Nat) :
    (chListAt volumes v).length = (volLen volumes v).getD 0 := by
  unfold chListAt volLen
  cases volumes.get? v <;> rfl

/-- Positions at or past the chapter count read as `none`. -/
theorem getCh_none_of_ge (volumes : List Volume) (v c : Nat)
    (h : (volLen volumes v).getD 0 ≤ c) :
    getCh volumes v c = none := by
  rw [getCh_eq_chListAt]
  exact List.get?_eq_none.mpr (by rw [chListAt_length]; exact h)

/-- Whether a position is populated depends only on the chapter counts. -/
theorem getCh_isSome_of_volLen (S T : List Volume) (v c : Nat)
    (h : volLen S v = volLen T v) (hs : (getCh S v c).isSome = true) :
    (getCh T v c).isSome = true := by
  rw [getCh_eq_chListAt, listGetIsSome, chListAt_length] at hs ⊢
  rw [← h]
  exact hs

/-- `setChapter` keeps the volume count. -/
theorem setChapter_length (volumes : List Volume) (vi ci : Nat) (ch : Chapter) :
    (setChapter volumes vi ci ch).length = volumes.length := by
  unfold setChapter
  cases volumes.get? vi with
  | none => rfl
  | some vol => exact List.length_set volumes vi _

/-- `setChapter` keeps every volume's chapter count. -/
theorem setChapter_volLen (volumes : List Volume) (vi ci : Nat) (ch : Chapter) (v : Nat) :
    volLen (setChapter volumes vi ci ch) v = volLen volumes v := by
  unfold setChapter
  rcases hv : volumes.get? vi with _ | vol
  · rfl
  unfold volLen
  by_cases hvv : vi = v
  · subst hvv
    rw [listGetSet_eq volumes vi _ (by rw [← listGetIsSome]; rw [hv]; rfl), hv]
    simp [List.length_set]
  · rw [listGetSet_ne volumes vi v _ hvv]

/-- `setChapter` keeps every volume's name. -/
theorem setChapter_volName (volumes : List Volume) (vi ci : Nat) (ch : Chapter) (v : Nat) :
    volName (setChapter volumes vi ci ch) v = volName volumes v := by
  unfold setChapter
  rcases hv : volumes.get? vi with _ | vol
  · rfl
  unfold volName
  by_cases hvv : vi = v
  · subst hvv
    rw [listGetSet_eq volumes vi _ (by rw [← listGetIsSome]; rw [hv]; rfl), hv]
    rfl
  · rw [listGetSet_ne volumes vi v _ hvv]

/-- `setChapter` is observable at the written position. -/
theorem setChapter_getCh_eq (volumes : List Volume) (vi ci : Nat) (ch x : Chapter)
    (h : getCh volumes vi ci = some ch) :
    getCh (setChapter volumes vi ci x) vi ci = some x := by
  unfold getCh at h
  rcases hv : volumes.get? vi with _ | vol
  · rw [hv] at h; exact Option.noConfusion h
  rw [hv] at h
  simp only [Option.some_bind] at h
  have hci : ci < vol.chapters.length := by
    rw [← listGetIsSome, h]; rfl
  unfold setChapter
  rw [hv]
  unfold getCh
  rw [listGetSet_eq volumes vi _ (by rw [← listGetIsSome, hv]; rfl)]
  exact listGetSet_eq vol.chapters ci x hci

/-- `setChapter` leaves every other position unchanged. -/
theorem setChapter_getCh_ne (volumes : List Volume) (vi ci : Nat) (x : Chapter)
    (v c : Nat) (h : v ≠ vi ∨ c ≠ ci) :
    getCh (setChapter volumes vi ci x) v c = getCh volumes v c := by
  unfold setChapter
  rcases hv : volumes.get? vi with _ | vol
  · rfl
  by_cases hvv : vi = v
  · subst hvv
    have hc : c ≠ ci := by
      rcases h with h | h
      · exact absurd rfl h
      · exact h
    unfold getCh
    rw [listGetSet_eq volumes vi _ (by rw [← listGetIsSome, hv]; rfl), hv]
    simp only [Option.some_bind]
    exact listGetSet_ne vol.chapters ci c x (fun he => hc he.symm)
  · unfold getCh
    rw [listGetSet_ne volumes vi v _ hvv]

/-! ### The per-target decision: basic properties -/

/-- An absent position is never a target. -/
theorem chapterDecision_none_of_missing (env : ResolverEnv) (base : String)
    (volumes : List Volume) (vi ci : Nat) (h : getCh volumes vi ci = none) :
    chapterDecision env base volumes vi ci = (none, 0) := by
  unfold chapterDecision
  rw [h]

/-- A chapter with `needs_resolve` false is skipped with no download:
lines 199-200. -/
theorem chapterDecision_none_of_resolved (env : ResolverEnv) (base : String)
    (volumes : List Volume) (vi ci : Nat) (ch : Chapter)
    (h : getCh volumes vi ci = some ch) (hn : ch.needs_resolve = false) :
    chapterDecision env base volumes vi ci = (none, 0) := by
  unfold chapterDecision
  rw [h]
  simp [hn]

/-- A positive decision can only rewrite an unresolved target, and the
rewrite has the resolved shape: `needs_resolve` cleared, the old `url`
moved into `original_url`, title kept, and a present resolved address. -/
theorem chapterDecision_some_inv (env : ResolverEnv) (base : String)
    (volumes : List Volume) (vi ci : Nat) (newCh : Chapter)
    (h : (chapterDecision env base volumes vi ci).1 = some newCh) :
    ∃ ch, getCh volumes vi ci = some ch ∧ ch.needs_resolve = true ∧
      newCh.needs_resolve = false ∧ newCh.original_url = ch.url ∧
      newCh.title = ch.title ∧ newCh.url.isSome = true := by
  unfold chapterDecision at h
  rcases hg : getCh volumes vi ci with _ | ch
  · simp only [hg] at h
    exact Option.noConfusion h
  simp only [hg] at h
  refine ⟨ch, rfl, ?_⟩
  by_cases hn : ch.needs_resolve = false
  · simp only [if_pos hn] at h
    exact Option.noConfusion h
  simp only [if_neg hn] at h
  have hn' : ch.needs_resolve = true := by
    cases hh : ch.needs_resolve
    · exact absurd hh hn
    · rfl
  rcases hf : find_prev_normal_chapter volumes vi ci with _ | pr
  · simp only [hf] at h
    exact Option.noConfusion h
  simp only [hf] at h
  rcases pr with ⟨pv, pc, prev_ch⟩
  rcases hu : prev_ch.url with _ | prev_url
  · simp only [hu] at h
    exact Option.noConfusion h
  simp only [hu] at h
  by_cases hpu : prev_url = "" ∨ prev_url = "javascript:cid(0)"
  · simp only [if_pos hpu] at h
    exact Option.noConfusion h
  simp only [if_neg hpu] at h
  rcases hr : resolveRun env prev_url base 20 with ⟨ro, n⟩
  rcases ro with _ | resolved_url
  · simp only [hr] at h
    exact Option.noConfusion h
  simp only [hr] at h
  by_cases hre : resolved_url = ""
  · simp only [if_pos hre] at h
    exact Option.noConfusion h
  simp only [if_neg hre] at h
  have := Option.some_inj.mp h
  subst this
  exact ⟨hn', rfl, rfl, rfl, rfl⟩

/-- The decision reads only the target entry, the backward search result
and the (pure) environment — captured below by the extensionality lemmas. -/
theorem processChapter_length (env : ResolverEnv) (base : String)
    (volumes : List Volume) (vi ci : Nat) :
    (processChapter env base volumes vi ci).length = volumes.length := by
  unfold processChapter
  cases (chapterDecision env base volumes vi ci).1 with
  | none => rfl
  | some newCh => exact setChapter_length volumes vi ci newCh

/-- `processChapter` keeps every volume's chapter count. -/
theorem processChapter_volLen (env : ResolverEnv) (base : String)
    (volumes : List Volume) (vi ci v : Nat) :
    volLen (processChapter env base volumes vi ci) v = volLen volumes v := by
  unfold processChapter
  cases (chapterDecision env base volumes vi ci).1 with
  | none => rfl
  | some newCh => exact setChapter_volLen volumes vi ci newCh v

/-- `processChapter` keeps every volume's name. -/
theorem processChapter_volName (env : ResolverEnv) (base : String)
    (volumes : List Volume) (vi ci v : Nat) :
    volName (processChapter env base volumes vi ci) v = volName volumes v := by
  unfold processChapter
  cases (chapterDecision env base volumes vi ci).1 with
  | none => rfl
  | some newCh => exact setChapter_volName volumes vi ci newCh v

/-- `processChapter` touches no position other than its own target. -/
theorem processChapter_getCh_ne (env : ResolverEnv) (base : String)
    (volumes : List Volume) (vi ci v c : Nat) (h : v ≠ vi ∨ c ≠ ci) :
    getCh (processChapter env base volumes vi ci) v c = getCh volumes v c := by
  unfold processChapter
  cases (chapterDecision env base volumes vi ci).1 with
  | none => rfl
  | some newCh => exact setChapter_getCh_ne volumes vi ci newCh v c h

/-! ### The backward search and the decision read only earlier positions -/

/-- `scanDown` reads only indices below its bound. -/
theorem scanDown_ext (l l' : List Chapter) :
    ∀ n, (∀ k, k < n → l.get? k = l'.get? k) → scanDown l n = scanDown l' n := by
  intro n
  induction n with
  | zero => intro _; rfl
  | succ m ih =>
    intro h
    unfold scanDown
    rw [← h m (Nat.lt_succ_self m)]
    rcases hm : l.get? m with _ | ch <;> simp only [hm]
    · exact ih fun k hk => h k (Nat.lt_succ_of_lt hk)
    · by_cases hch : ch.needs_resolve = false
      · simp only [if_pos hch]
      · simp only [if_neg hch]
        exact ih fun k hk => h k (Nat.lt_succ_of_lt hk)

/-- `find_prev_normal_chapter` at `(vi, ci)` depends only on the chapter
counts and the entries strictly before `(vi, ci)` in document order. -/
theorem findPrevVols_ext (S T : List Volume) (vi ci : Nat)
    (hlen : ∀ v, volLen S v = volLen T v)
    (hch : ∀ v k, v < vi ∨ (v = vi ∧ k < ci) → getCh S v k = getCh T v k) :
    ∀ vp, vp ≤ vi + 1 → findPrevVols S vi ci vp = findPrevVols T vi ci vp := by
  intro vp
  induction vp with
  | zero => intro _; rfl
  | succ m ih =>
    intro hm
    have hmvi : m ≤ vi := Nat.succ_le_succ_iff.mp hm
    have hlist : (chListAt S m).length = (chListAt T m).length := by
      rw [chListAt_length, chListAt_length, hlen]
    have hscan : scanDown (chListAt S m) (if m = vi then ci else (chListAt S m).length)
        = scanDown (chListAt T m) (if m = vi then ci else (chListAt T m).length) := by
      have hcnt : (if m = vi then ci else (chListAt S m).length)
          = (if m = vi then ci else (chListAt T m).length) := by
        by_cases hv : m = vi <;> simp [hv, hlist]
      rw [← hcnt]
      apply scanDown_ext
      intro k hk
      rw [← getCh_eq_chListAt, ← getCh_eq_chListAt]
      apply hch
      by_cases hv : m = vi
      · right
        exact ⟨hv, by rwa [if_pos hv] at hk⟩
      · left
        exact Nat.lt_of_le_of_ne hmvi hv
    simp only [findPrevVols]
    rw [hscan]
    rcases hsc : scanDown (chListAt T m) (if m = vi then ci else (chListAt T m).length)
      with _ | pr <;> simp only [hsc]
    exact ih (le_trans (Nat.le_succ m) hm)

/-- Extensionality of the full backward search. -/
theorem find_prev_ext (S T : List Volume) (vi ci : Nat)
    (hlen : ∀ v, volLen S v = volLen T v)
    (hch : ∀ v k, v < vi ∨ (v = vi ∧ k < ci) → getCh S v k = getCh T v k) :
    find_prev_normal_chapter S vi ci = find_prev_normal_chapter T vi ci :=
  findPrevVols_ext S T vi ci hlen hch (vi + 1) (Nat.le_refl _)

/-- The decision for a target depends only on the target entry, the
chapter counts, and the entries before it in document order. -/
theorem chapterDecision_ext (env : ResolverEnv) (base : String) (S T : List Volume)
    (vi ci : Nat)
    (hg : getCh S vi ci = getCh T vi ci)
    (hlen : ∀ v, volLen S v = volLen T v)
    (hch : ∀ v k, v < vi ∨ (v = vi ∧ k < ci) → getCh S v k = getCh T v k) :
    chapterDecision env base S vi ci = chapterDecision env base T vi ci := by
  unfold chapterDecision
  rw [hg, find_prev_ext S T vi ci hlen hch]

/-! ### Every pass step only resolves targets (claim C7 machinery) -/

/-- `chapterOutcome` is reflexive. -/
theorem chapterOutcome_refl (ch : Chapter) : chapterOutcome ch ch := Or.inl rfl

/-- `bookEvolves` is reflexive. -/
theorem bookEvolves_refl (B : List Volume) : bookEvolves B B := by
  refine ⟨rfl, fun _ => rfl, fun _ => rfl, ?_⟩
  intro v c ch ch' h1 h2
  rw [h1] at h2
  exact Or.inl (Option.some_inj.mp h2).symm

/-- `bookEvolves` composes: a resolved entry can never be rewritten again. -/
theorem bookEvolves_trans (A B C : List Volume)
    (h1 : bookEvolves A B) (h2 : bookEvolves B C) : bookEvolves A C := by
  obtain ⟨l1, vl1, vn1, r1⟩ := h1
  obtain ⟨l2, vl2, vn2, r2⟩ := h2
  refine ⟨l2.trans l1, fun v => (vl2 v).trans (vl1 v), fun v => (vn2 v).trans (vn1 v), ?_⟩
  intro v c ch ch' hA hC
  have hBsome : (getCh B v c).isSome = true := by
    refine getCh_isSome_of_volLen A B v c (vl1 v).symm ?_
    rw [hA]; rfl
  rcases hB : getCh B v c with _ | chB
  · rw [hB] at hBsome; simp at hBsome
  have o1 := r1 v c ch chB hA hB
  have o2 := r2 v c chB ch' hB hC
  rcases o2 with rfl | ⟨hb1, hb2, hb3, hb4, hb5⟩
  · exact o1
  · rcases o1 with rfl | ⟨_, ha2, _, _, _⟩
    · exact Or.inr ⟨hb1, hb2, hb3, hb4, hb5⟩
    · rw [ha2] at hb1
      exact Bool.noConfusion hb1

/-- One pass step relates the structure to its successor. -/
theorem bookEvolves_processChapter (env : ResolverEnv) (base : String)
    (S : List Volume) (vi ci : Nat) :
    bookEvolves S (processChapter env base S vi ci) := by
  rcases hd : (chapterDecision env base S vi ci).1 with _ | newCh
  · unfold processChapter
    rw [hd]
    exact bookEvolves_refl S
  · obtain ⟨ch, hg, hneeds, hn2, hn3, hn4, hn5⟩ :=
      chapterDecision_some_inv env base S vi ci newCh hd
    unfold processChapter
    rw [hd]
    refine ⟨setChapter_length S vi ci newCh, fun v => setChapter_volLen S vi ci newCh v,
      fun v => setChapter_volName S vi ci newCh v, ?_⟩
    intro v c ch0 ch0' h1 h2
    by_cases hvc : v = vi ∧ c = ci
    · obtain ⟨rfl, rfl⟩ := hvc
      rw [hg] at h1
      rw [setChapter_getCh_eq S v c ch newCh hg] at h2
      have e0 : ch0 = ch := Option.some_inj.mp h1.symm
      have e1 : ch0' = newCh := Option.some_inj.mp h2.symm
      subst e0; subst e1
      exact Or.inr ⟨hneeds, hn2, hn3, hn4, hn5⟩
    · have hne : v ≠ vi ∨ c ≠ ci := by
        by_cases hv : v = vi
        · right
          intro hc
          exact hvc ⟨hv, hc⟩
        · left
          exact hv
      rw [setChapter_getCh_ne S vi ci newCh v c hne] at h2
      rw [h1] at h2
      exact Or.inl (Option.some_inj.mp h2).symm

/-- The chapter loop only resolves targets. -/
theorem chaptersFrom_evolves (env : ResolverEnv) (base : String) (vi : Nat) :
    ∀ rem (S : List Volume) (ci : Nat),
      bookEvolves S (resolveChaptersFrom env base vi rem S ci) := by
  intro rem
  induction rem with
  | zero => intro S ci; exact bookEvolves_refl S
  | succ m ih =>
    intro S ci
    exact bookEvolves_trans _ _ _ (bookEvolves_processChapter env base S vi ci)
      (ih _ (ci + 1))

/-- The volume loop only resolves targets. -/
theorem volumesFrom_evolves (env : ResolverEnv) (base : String) :
    ∀ rem (S : List Volume) (vi : Nat),
      bookEvolves S (resolveVolumesFrom env base rem S vi) := by
  intro rem
  induction rem with
  | zero => intro S vi; exact bookEvolves_refl S
  | succ m ih =>
    intro S vi
    exact bookEvolves_trans _ _ _ (chaptersFrom_evolves env base vi _ S 0) (ih _ (vi + 1))

/-- The whole pass only resolves targets. -/
theorem resolveAll_evolves (env : ResolverEnv) (base : String) (B : List Volume) :
    bookEvolves B (resolve_all_special_chapters env base B) :=
  volumesFrom_evolves env base B.length B 0

/-! ### A finished pass leaves nothing to decide (claim C8 machinery) -/

/-- Invariant of the chapter loop at volume `vi`, processing `rem`
positions from `ci`: chapter counts and all positions outside the
processed range are preserved, and re-deciding any processed position
against the final state yields a skip. -/
theorem chaptersFrom_inv (env : ResolverEnv) (base : String) (vi : Nat) :
    ∀ rem (S : List Volume) (ci : Nat),
      (resolveChaptersFrom env base vi rem S ci).length = S.length ∧
      (∀ v, volLen (resolveChaptersFrom env base vi rem S ci) v = volLen S v) ∧
      (∀ v k, v ≠ vi →
        getCh (resolveChaptersFrom env base vi rem S ci) v k = getCh S v k) ∧
      (∀ k, k < ci →
        getCh (resolveChaptersFrom env base vi rem S ci) vi k = getCh S vi k) ∧
      (∀ k, k < rem →
        (chapterDecision env base (resolveChaptersFrom env base vi rem S ci) vi (ci + k)).1
          = none) := by
  intro rem
  induction rem with
  | zero =>
    intro S ci
    exact ⟨rfl, fun _ => rfl, fun _ _ _ => rfl, fun _ _ => rfl,
      fun k hk => absurd hk (Nat.not_lt_zero k)⟩
  | succ m ih =>
    intro S ci
    obtain ⟨ihl, ihvl, ihnv, ihlt, ihdec⟩ := ih (processChapter env base S vi ci) (ci + 1)
    have hstep : resolveChaptersFrom env base vi (m + 1) S ci
        = resolveChaptersFrom env base vi m (processChapter env base S vi ci) (ci + 1) := rfl
    rw [hstep]
    refine ⟨ihl.trans (processChapter_length env base S vi ci), ?_, ?_, ?_, ?_⟩
    · intro v
      exact (ihvl v).trans (processChapter_volLen env base S vi ci v)
    · intro v k hv
      exact (ihnv v k hv).trans (processChapter_getCh_ne env base S vi ci v k (Or.inl hv))
    · intro k hk
      refine (ihlt k (Nat.lt_succ_of_lt hk)).trans
        (processChapter_getCh_ne env base S vi ci vi k (Or.inr (Nat.ne_of_lt hk)))
    · intro k hk
      rcases k with _ | k
      · -- re-deciding the position just processed: it is now skipped
        have hg : getCh (resolveChaptersFrom env base vi m
              (processChapter env base S vi ci) (ci + 1)) vi ci
            = getCh (processChapter env base S vi ci) vi ci :=
          ihlt ci (Nat.lt_succ_self ci)
        have hchm : ∀ v k, v < vi ∨ (v = vi ∧ k < ci) →
            getCh (resolveChaptersFrom env base vi m (processChapter env base S vi ci)
              (ci + 1)) v k = getCh (processChapter env base S vi ci) v k := by
          intro v k hcond
          rcases hcond with hv | ⟨rfl, hk2⟩
          · exact ihnv v k (Nat.ne_of_lt hv)
          · exact ihlt k (Nat.lt_succ_of_lt hk2)
        have hext := chapterDecision_ext env base
          (resolveChaptersFrom env base vi m (processChapter env base S vi ci) (ci + 1))
          (processChapter env base S vi ci) vi ci hg ihvl hchm
        show (chapterDecision env base (resolveChaptersFrom env base vi m
          (processChapter env base S vi ci) (ci + 1)) vi ci).1 = none
        rw [hext]
        rcases hd : (chapterDecision env base S vi ci).1 with _ | newCh
        · have hid : processChapter env base S vi ci = S := by
            unfold processChapter
            rw [hd]
          rw [hid, hd]
        · obtain ⟨ch, hgS, _, hnf, _, _, _⟩ :=
            chapterDecision_some_inv env base S vi ci newCh hd
          have hnew : getCh (processChapter env base S vi ci) vi ci = some newCh := by
            unfold processChapter
            rw [hd]
            exact setChapter_getCh_eq S vi ci ch newCh hgS
          rw [chapterDecision_none_of_resolved env base _ vi ci newCh hnew hnf]
      · have := ihdec k (Nat.succ_lt_succ_iff.mp hk)
        rw [show ci + (k + 1) = (ci + 1) + k by omega]
        exact this

/-- Invariant of the volume loop, processing `rem` volumes from `vi`:
counts and earlier volumes preserved, and re-deciding any position of a
processed volume against the final state yields a skip. -/
theorem volumesFrom_inv (env : ResolverEnv) (base : String) :
    ∀ rem (S : List Volume) (vi : Nat),
      (resolveVolumesFrom env base rem S vi).length = S.length ∧
      (∀ v, volLen (resolveVolumesFrom env base rem S vi) v = volLen S v) ∧
      (∀ v k, v < vi → getCh (resolveVolumesFrom env base rem S vi) v k = getCh S v k) ∧
      (∀ kk cc, kk < rem →
        (chapterDecision env base (resolveVolumesFrom env base rem S vi) (vi + kk) cc).1
          = none) := by
  intro rem
  induction rem with
  | zero =>
    intro S vi
    exact ⟨rfl, fun _ => rfl, fun _ _ _ => rfl, fun kk cc hk => absurd hk (Nat.not_lt_zero kk)⟩
  | succ m ih =>
    intro S vi
    obtain ⟨mcl, mcvl, mcnv, mclt, mcdec⟩ :=
      chaptersFrom_inv env base vi ((volLen S vi).getD 0) S 0
    obtain ⟨ihl, ihvl, ihlt, ihdec⟩ :=
      ih (resolveChaptersFrom env base vi ((volLen S vi).getD 0) S 0) (vi + 1)
    have hstep : resolveVolumesFrom env base (m + 1) S vi
        = resolveVolumesFrom env base m
            (resolveChaptersFrom env base vi ((volLen S vi).getD 0) S 0) (vi + 1) := rfl
    rw [hstep]
    refine ⟨ihl.trans mcl, ?_, ?_, ?_⟩
    · intro v
      exact (ihvl v).trans (mcvl v)
    · intro v k hv
      exact (ihlt v k (Nat.lt_succ_of_lt hv)).trans (mcnv v k (Nat.ne_of_lt hv))
    · intro kk cc hk
      rcases kk with _ | kk
      · show (chapterDecision env base (resolveVolumesFrom env base m
          (resolveChaptersFrom env base vi ((volLen S vi).getD 0) S 0) (vi + 1)) vi cc).1
          = none
        by_cases hcc : cc < (volLen S vi).getD 0
        · have hdS : (chapterDecision env base
              (resolveChaptersFrom env base vi ((volLen S vi).getD 0) S 0) vi cc).1
              = none := by
            have := mcdec cc hcc
            rwa [Nat.zero_add] at this
          have hchm : ∀ v k, v < vi ∨ (v = vi ∧ k < cc) →
              getCh (resolveVolumesFrom env base m
                (resolveChaptersFrom env base vi ((volLen S vi).getD 0) S 0) (vi + 1)) v k
                = getCh (resolveChaptersFrom env base vi ((volLen S vi).getD 0) S 0) v k := by
            intro v k hcond
            rcases hcond with hv | ⟨rfl, _⟩
            · exact ihlt v k (Nat.lt_succ_of_lt hv)
            · exact ihlt v k (Nat.lt_succ_self v)
          have hext := chapterDecision_ext env base
            (resolveVolumesFrom env base m
              (resolveChaptersFrom env base vi ((volLen S vi).getD 0) S 0) (vi + 1))
            (resolveChaptersFrom env base vi ((volLen S vi).getD 0) S 0) vi cc
            (ihlt vi cc (Nat.lt_succ_self vi)) ihvl hchm
          rw [hext]
          exact hdS
        · have hvl : (volLen (resolveVolumesFrom env base m
              (resolveChaptersFrom env base vi ((volLen S vi).getD 0) S 0) (vi + 1)) vi).getD 0
              = (volLen S vi).getD 0 := by
            rw [ihvl vi, mcvl vi]
          have hnone : getCh (resolveVolumesFrom env base m
              (resolveChaptersFrom env base vi ((volLen S vi).getD 0) S 0) (vi + 1)) vi cc
              = none := by
            refine getCh_none_of_ge _ vi cc ?_
            rw [hvl]
            exact Nat.le_of_not_lt hcc
          rw [chapterDecision_none_of_missing env base _ vi cc hnone]
      · have := ihdec kk cc (Nat.succ_lt_succ_iff.mp hk)
        rw [show vi + (kk + 1) = (vi + 1) + kk by omega]
        exact this

/-- A state in which every decision is a skip is a fixed point of the
chapter loop. -/
theorem chaptersFrom_id (env : ResolverEnv) (base : String) (vi : Nat) (S : List Volume)
    (h : ∀ k, (chapterDecision env base S vi k).1 = none) :
    ∀ rem ci, resolveChaptersFrom env base vi rem S ci = S := by
  intro rem
  induction rem with
  | zero => intro ci; rfl
  | succ m ih =>
    intro ci
    have hp : processChapter env base S vi ci = S := by
      unfold processChapter
      rw [h ci]
    show resolveChaptersFrom env base vi m (processChapter env base S vi ci) (ci + 1) = S
    rw [hp]
    exact ih (ci + 1)

/-- A state in which every decision is a skip is a fixed point of the
whole pass. -/
theorem volumesFrom_id (env : ResolverEnv) (base : String) (S : List Volume)
    (h : ∀ v k, (chapterDecision env base S v k).1 = none) :
    ∀ rem vi, resolveVolumesFrom env base rem S vi = S := by
  intro rem
  induction rem with
  | zero => intro vi; rfl
  | succ m ih =>
    intro vi
    have hc : resolveChaptersFrom env base vi ((volLen S vi).getD 0) S 0 = S :=
      chaptersFrom_id env base vi S (h vi) _ 0
    show resolveVolumesFrom env base m
        (resolveChaptersFrom env base vi ((volLen S vi).getD 0) S 0) (vi + 1) = S
    rw [hc]
    exact ih (vi + 1)

/-- Every decision against a finished pass is a skip. -/
theorem resolveAll_decisions_none (env : ResolverEnv) (base : String) (B : List Volume) :
    ∀ v k, (chapterDecision env base (resolve_all_special_chapters env base B) v k).1
      = none := by
  intro v k
  obtain ⟨hl, _, _, hdec⟩ := volumesFrom_inv env base B.length B 0
  by_cases hv : v < B.length
  · have := hdec v k hv
    rwa [Nat.zero_add] at this
  · have hnone : getCh (resolve_all_special_chapters env base B) v k = none := by
      refine getCh_none_of_ge _ v k ?_
      have hvnone : (resolve_all_special_chapters env base B).get? v = none := by
        refine List.get?_eq_none.mpr ?_
        unfold resolve_all_special_chapters
        rw [hl]
        exact Nat.le_of_not_lt hv
      unfold volLen
      rw [hvnone]
      exact Nat.zero_le k
    rw [chapterDecision_none_of_missing env base _ v k hnone]

/-! ### The very first chapter has no predecessor (claim C7 machinery) -/

/-- The backward search from position `(0, 0)` has nothing to scan. -/
theorem find_prev_zero (S : List Volume) : find_prev_normal_chapter S 0 0 = none := rfl

/-- Position `(0, 0)` is always skipped: resolved entries are skipped, and
an unresolved first chapter has no resolved predecessor. -/
theorem chapterDecision_zero (env : ResolverEnv) (base : String) (S : List Volume) :
    (chapterDecision env base S 0 0).1 = none := by
  rcases hg : getCh S 0 0 with _ | ch
  · rw [chapterDecision_none_of_missing env base S 0 0 hg]
  · by_cases hn : ch.needs_resolve = false
    · rw [chapterDecision_none_of_resolved env base S 0 0 ch hg hn]
    · unfold chapterDecision
      simp only [hg, if_neg hn, find_prev_zero]

/-- The pass step at `(0, 0)` never changes anything. -/
theorem processChapter_zero (env : ResolverEnv) (base : String) (S : List Volume) :
    processChapter env base S 0 0 = S := by
  unfold processChapter
  rw [chapterDecision_zero]

/-- The whole pass leaves position `(0, 0)` exactly as found. -/
theorem resolveAll_getCh_zero (env : ResolverEnv) (base : String) (B : List Volume) :
    getCh (resolve_all_special_chapters env base B) 0 0 = getCh B 0 0 := by
  unfold resolve_all_special_chapters
  rcases hbl : B.length with _ | m
  · rfl
  obtain ⟨_, _, ihlt, _⟩ :=
    volumesFrom_inv env base m (resolveChaptersFrom env base 0 ((volLen B 0).getD 0) B 0) 1
  have h1 : getCh (resolveVolumesFrom env base (m + 1) B 0) 0 0
      = getCh (resolveChaptersFrom env base 0 ((volLen B 0).getD 0) B 0) 0 0 :=
    ihlt 0 0 (Nat.lt_succ_self 0)
  rw [h1]
  rcases hcnt : (volLen B 0).getD 0 with _ | r
  · rfl
  have h2 : resolveChaptersFrom env base 0 (r + 1) B 0
      = resolveChaptersFrom env base 0 r (processChapter env base B 0 0) 1 := rfl
  rw [h2, processChapter_zero]
  obtain ⟨_, _, _, mclt, _⟩ := chaptersFrom_inv env base 0 r B 1
  exact mclt 0 (Nat.lt_succ_self 0)

/-! ### Claim theorems C7, C8, C9 -/

/-- Claim C7: `resolve_all_special_chapters` is a total function of the
structure (the embedding never raises); every entry of the result is
either byte-for-byte the entry it started as — in particular every
per-target failure leaves the target untouched and the pass continues —
or a successful resolution of an unresolved target, and the entry at
position `(0, 0)`, which can have no resolved predecessor, is always left
exactly as found. -/
theorem resolve_all_never_raises (env : ResolverEnv) (base : String) (B : List Volume) :
    bookEvolves B (resolve_all_special_chapters env base B) ∧
    getCh (resolve_all_special_chapters env base B) 0 0 = getCh B 0 0 :=
  ⟨resolveAll_evolves env base B, resolveAll_getCh_zero env base B⟩

/-- Claim C8: a second pass over the output of a first pass changes
nothing, and an entry with `needs_resolve` false is skipped outright — its
decision is a skip with zero downloads — and survives the pass exactly as
it was. -/
theorem resolve_all_idempotent (env : ResolverEnv) (base : String) (B : List Volume)
    (vi ci : Nat) (ch : Chapter)
    (h1 : getCh B vi ci = some ch) (h2 : ch.needs_resolve = false) :
    resolve_all_special_chapters env base (resolve_all_special_chapters env base B)
      = resolve_all_special_chapters env base B ∧
    chapterDecision env base B vi ci = (none, 0) ∧
    getCh (resolve_all_special_chapters env base B) vi ci = some ch := by
  refine ⟨?_, chapterDecision_none_of_resolved env base B vi ci ch h1 h2, ?_⟩
  · exact volumesFrom_id env base _ (resolveAll_decisions_none env base B) _ 0
  · obtain ⟨_, hvl, _, hr⟩ := resolveAll_evolves env base B
    have hsome : (getCh (resolve_all_special_chapters env base B) vi ci).isSome = true := by
      refine getCh_isSome_of_volLen B _ vi ci (hvl vi).symm ?_
      rw [h1]; rfl
    rcases hF : getCh (resolve_all_special_chapters env base B) vi ci with _ | ch'
    · rw [hF] at hsome; simp at hsome
    rcases hr vi ci ch ch' h1 hF with rfl | ⟨hb1, _, _, _, _⟩
    · rfl
    · rw [h2] at hb1
      exact Bool.noConfusion hb1

/-- Witness for `resolve_all_idempotent` on a structure with one resolved
and one unresolvable chapter, against an environment where every download
fails. -/
theorem resolve_all_idempotent_witness :
    resolve_all_special_chapters envDead "http://b"
        (resolve_all_special_chapters envDead "http://b" bookMixed)
      = resolve_all_special_chapters envDead "http://b" bookMixed ∧
    chapterDecision envDead "http://b" bookMixed 0 0 = (none, 0) ∧
    getCh (resolve_all_special_chapters envDead "http://b" bookMixed) 0 0
      = some ⟨"a", some "http://b/novel/1/5.html", false, none⟩ :=
  resolve_all_idempotent envDead "http://b" bookMixed 0 0
    ⟨"a", some "http://b/novel/1/5.html", false, none⟩ (by decide) (by decide)

/-- Claim C9: comparing any entry before and after a pass, either it is
unchanged — so `original_url`, once set, is never overwritten by a later
operation of the pass — or it was an unresolved target that the pass
resolved, in which case `original_url` received exactly the entry's
pre-resolution placeholder `url`. -/
theorem original_url_written_once (env : ResolverEnv) (base : String) (B : List Volume)
    (vi ci : Nat) (ch ch' : Chapter)
    (h1 : getCh B vi ci = some ch)
    (h2 : getCh (resolve_all_special_chapters env base B) vi ci = some ch') :
    ch' = ch ∨
      (ch.needs_resolve = true ∧ ch'.needs_resolve = false ∧
        ch'.original_url = ch.url ∧ ch'.title = ch.title) := by
  obtain ⟨_, _, _, hr⟩ := resolveAll_evolves env base B
  rcases hr vi ci ch ch' h1 h2 with rfl | ⟨hb1, hb2, hb3, hb4, _⟩
  · exact Or.inl rfl
  · exact Or.inr ⟨hb1, hb2, hb3, hb4⟩

/-- Witness for `original_url_written_once` at the resolved target `C1` of
the cascading fixture. -/
theorem original_url_written_once_witness :
    (⟨"c1", some "http://b/novel/1/101.html", false, some placeholderUrl⟩ : Chapter)
        = unresolvedCh "c1" ∨
      ((unresolvedCh "c1").needs_resolve = true ∧
        (⟨"c1", some "http://b/novel/1/101.html", false, some placeholderUrl⟩ :
            Chapter).needs_resolve = false ∧
        (⟨"c1", some "http://b/novel/1/101.html", false, some placeholderUrl⟩ :
            Chapter).original_url = (unresolvedCh "c1").url ∧
        (⟨"c1", some "http://b/novel/1/101.html", false, some placeholderUrl⟩ :
            Chapter).title = (unresolvedCh "c1").title) :=
  original_url_written_once envCascade "http://b" bookCascade 0 1 (unresolvedCh "c1")
    ⟨"c1", some "http://b/novel/1/101.html", false, some placeholderUrl⟩
    (by decide) (by decide)
